import Mathlib

/-!
Shallow embedding of the typed columnar accessor layer
(`columnar/src/column/mod.rs`) and of the distinct-count aggregation
(`src/aggregation/metric/distinct.rs`) of the repository, together with
theorems settling the specification claims about them.

Machine integers (`u32` docids/row ids, `u64` values) are modelled as `Nat`;
`i64` is modelled as `Int`.  Rust's `Vec` and slices are modelled as `List`;
`BTreeSet<u64>` is modelled as `Finset Nat`.
-/

namespace Tantivy

/-! ### Distinct aggregation (`src/aggregation/metric/distinct.rs`) -/

/-- `IntermediateDistinct`: the mergeable state of the distinct aggregation.
`terms` models the `BTreeSet<u64>` of collected values, `term_count` the
running counter. -/
structure IntermediateDistinct where
  terms : Finset Nat
  term_count : Nat
deriving DecidableEq

/-- `IntermediateDistinct::default()`: empty set, zero count. -/
def IntermediateDistinct.default : IntermediateDistinct :=
  { terms := ∅, term_count := 0 }

/-- `IntermediateDistinct::collect`: inserts `val` into `terms`; the counter is
incremented exactly when `BTreeSet::insert` returns `true`, i.e. when `val`
was not already present. -/
def IntermediateDistinct.collect (s : IntermediateDistinct) (val : Nat) :
    IntermediateDistinct :=
  if val ∈ s.terms then
    { s with terms := insert val s.terms }
  else
    { terms := insert val s.terms, term_count := s.term_count + 1 }

/-- `IntermediateDistinct::merge_fruits`: unions the term sets and adds the
counters. -/
def IntermediateDistinct.merge_fruits (s other : IntermediateDistinct) :
    IntermediateDistinct :=
  { terms := s.terms ∪ other.terms, term_count := s.term_count + other.term_count }

/-- `IntermediateDistinct::finalize`: `None` when the counter is zero, else the
counter (the `f64` cast in the source does not change the reported number). -/
def IntermediateDistinct.finalize (s : IntermediateDistinct) : Option Nat :=
  if s.term_count = 0 then none else some s.term_count

/-- The `IntermediateDistinct` states reachable from the default state by any
sequence of `collect` and `merge_fruits` operations (the merged-in state being
itself reachable, as it comes from another segment collector). -/
inductive ReachableDistinct : IntermediateDistinct → Prop where
  | default : ReachableDistinct IntermediateDistinct.default
  | collect {s : IntermediateDistinct} (v : Nat) :
      ReachableDistinct s → ReachableDistinct (s.collect v)
  | merge {s other : IntermediateDistinct} :
      ReachableDistinct s → ReachableDistinct other →
      ReachableDistinct (s.merge_fruits other)

/-- `SegmentDistinctCollector::collect_block` acting on its `data` state.
The column argument `field` models `&dyn Column<u64>` through its `get_val`
method.  Mirrors the source: `chunks_exact(4)` processes four docs per
iteration while at least four remain, reading the four values then collecting
them in order; the remainder loop handles the final `< 4` docs. -/
def collect_block (field : Nat → Nat) :
    IntermediateDistinct → List Nat → IntermediateDistinct
  | s, d1 :: d2 :: d3 :: d4 :: rest =>
    let val1 := field d1
    let val2 := field d2
    let val3 := field d3
    let val4 := field d4
    collect_block field ((((s.collect val1).collect val2).collect val3).collect val4) rest
  | s, rest => rest.foldl (fun acc d => acc.collect (field d)) s

/-! ### Cardinality and its wire encoding (`columnar/src/column/mod.rs`) -/

/-- `Cardinality`: the closed arity enumeration of a column. -/
inductive Cardinality where
  | full
  | optional
  | multivalued
deriving DecidableEq, Repr

/-- Modelled from the spec: `Cardinality::to_code` (not under `src/`) — the
stable single-byte code 0/1/2 for Full/Optional/Multivalued. -/
def Cardinality.to_code : Cardinality → Nat
  | .full => 0
  | .optional => 1
  | .multivalued => 2

/-- Modelled from the spec: `Cardinality::try_from_code` (not under `src/`) —
maps a byte back to a variant and fails recoverably on any unknown byte. -/
def Cardinality.try_from_code : Nat → Option Cardinality
  | 0 => some .full
  | 1 => some .optional
  | 2 => some .multivalued
  | _ => none

/-- `BinarySerializable::serialize` for `Cardinality`: writes the one code
byte.  The byte stream is modelled as a list of byte values. -/
def Cardinality.serialize (c : Cardinality) : List Nat :=
  [c.to_code]

/-- `BinarySerializable::deserialize` for `Cardinality`: reads one byte from
the stream and maps it back through `try_from_code`; `none` models the
recoverable decode error (also when the stream is empty).  On success it
returns the variant and the unread remainder of the stream. -/
def Cardinality.deserialize : List Nat → Option (Cardinality × List Nat)
  | [] => none
  | b :: rest => (Cardinality.try_from_code b).map (fun c => (c, rest))

/-! ### Value store (`ColumnValues<T>`, external collaborator) -/

/-- Modelled from the spec: the value store `ColumnValues<T>` (not under
`src/`) — an opaque, ordered, indexable sequence of typed scalar values keyed
by row id, with min/max sentinels. -/
structure ColumnValues (α : Type) where
  vals : List α
  minVal : α
  maxVal : α

/-- `ColumnValues::num_vals`: the element count of the store. -/
def ColumnValues.num_vals (cv : ColumnValues α) : Nat :=
  cv.vals.length

/-- `ColumnValues::get_val`: the element at a row id (out-of-range access is a
precondition violation; the model returns the min sentinel there). -/
def ColumnValues.get_val (cv : ColumnValues α) (r : Nat) : α :=
  cv.vals.getD r cv.minVal

/-- `ColumnValues::min_value`. -/
def ColumnValues.min_value (cv : ColumnValues α) : α :=
  cv.minVal

/-- `ColumnValues::max_value`. -/
def ColumnValues.max_value (cv : ColumnValues α) : α :=
  cv.maxVal

/-- Modelled from the spec: `ColumnValues::get_row_ids_for_value_range` (not
under `src/`) — appends to `out` the row ids inside the given row-id range
whose value lies in the inclusive value range. -/
def ColumnValues.get_row_ids_for_value_range [LinearOrder α] (cv : ColumnValues α)
    (lo hi : α) (row_range : Nat × Nat) (out : List Nat) : List Nat :=
  out ++ (List.range cv.vals.length).filter
    (fun r => decide (row_range.1 ≤ r ∧ r < row_range.2 ∧
      lo ≤ cv.get_val r ∧ cv.get_val r ≤ hi))

/-! ### Address-space index (`ColumnIndex`, external contract) -/

/-- Modelled from the spec: the address-space index — a closed tagged variant,
each variant carrying only the state it needs: none for Full (docid = row id),
a per-document presence flag for Optional, and the start-offset sequence for
Multivalued (with one extra sentinel entry at the end equal to the total row
count). -/
inductive ColumnIndex where
  | full
  | optional (hasValue : List Bool)
  | multivalued (starts : List Nat)
deriving DecidableEq, Repr

/-- Modelled from the spec: `OptionalIndex::num_docs` — the total number of
documents, including those with no value. -/
def OptionalIndex.num_docs (hasValue : List Bool) : Nat :=
  hasValue.length

/-- Modelled from the spec: `MultivaluedIndex::num_docs` — one less than the
number of stored start markers, the last marker being a sentinel. -/
def MultivaluedIndex.num_docs (starts : List Nat) : Nat :=
  starts.length - 1

/-- The row id of the value of document `d` in an Optional index: the number
of value-carrying documents before `d` (the rank of `d`). -/
def OptionalIndex.rank (hasValue : List Bool) (d : Nat) : Nat :=
  (hasValue.take d).count true

/-- Modelled from the spec: the reverse translation of an Optional index — the
docid that produced row id `r`, i.e. the position of the `(r+1)`-th
value-carrying document. -/
def OptionalIndex.select : List Bool → Nat → Nat
  | [], _ => 0
  | true :: _, 0 => 0
  | true :: tl, r + 1 => OptionalIndex.select tl r + 1
  | false :: tl, r => OptionalIndex.select tl r + 1

/-- Modelled from the spec: the reverse translation of a Multivalued index —
the docid owning row id `r` (the docid `d` with `starts[d] <= r <
starts[d+1]`), searched upward from the base docid offset. -/
def MultivaluedIndex.select (starts : List Nat) (base r : Nat) : Nat :=
  base + ((List.range (MultivaluedIndex.num_docs starts - base)).filter
    (fun i => decide (starts.getD (base + i + 1) 0 ≤ r))).length

/-- `ColumnIndex::get_cardinality`. -/
def ColumnIndex.get_cardinality : ColumnIndex → Cardinality
  | .full => .full
  | .optional _ => .optional
  | .multivalued _ => .multivalued

/-- Modelled from the spec: `ColumnIndex::value_row_ids` (not under `src/`) —
the ascending row ids backing document `d`: for Full the single row `d`; for
Optional the single rank row when the document carries a value, none
otherwise; for Multivalued the contiguous range `[starts[d], starts[d+1])`. -/
def ColumnIndex.value_row_ids : ColumnIndex → Nat → List Nat
  | .full, d => [d]
  | .optional hasValue, d =>
    if hasValue.getD d false then [OptionalIndex.rank hasValue d] else []
  | .multivalued starts, d =>
    List.range' (starts.getD d 0) (starts.getD (d + 1) 0 - starts.getD d 0)

/-- Modelled from the spec: `ColumnIndex::docid_range_to_rowids` (not under
`src/`) — translates a half-open docid range into the row-id range covering
it: the identity for Full, the rank range for Optional, the start-offset
range for Multivalued. -/
def ColumnIndex.docid_range_to_rowids : ColumnIndex → Nat → Nat → Nat × Nat
  | .full, s, e => (s, e)
  | .optional hasValue, s, e =>
    (OptionalIndex.rank hasValue s, OptionalIndex.rank hasValue e)
  | .multivalued starts, s, e => (starts.getD s 0, starts.getD e 0)

/-- The per-element reverse translation used by `select_batch_in_place`: the
docid that produced a row id (the identity for Full). -/
def ColumnIndex.select_one : ColumnIndex → Nat → Nat → Nat
  | .full, _, r => r
  | .optional hasValue, _, r => OptionalIndex.select hasValue r
  | .multivalued starts, base, r => MultivaluedIndex.select starts base r

/-- Modelled from the spec: `ColumnIndex::select_batch_in_place` (not under
`src/`) — rewrites the given row ids in place into the docids that produced
them, using the given base docid offset. -/
def ColumnIndex.select_batch_in_place (idx : ColumnIndex) (rows : List Nat)
    (base : Nat) : List Nat :=
  rows.map (idx.select_one base)

/-! ### Column (`Column<T>`, `columnar/src/column/mod.rs`) -/

/-- `Column<T>`: an address-space index paired with a value store. -/
structure Column (α : Type) where
  idx : ColumnIndex
  values : ColumnValues α

/-- `Column::get_cardinality`. -/
def Column.get_cardinality (c : Column α) : Cardinality :=
  c.idx.get_cardinality

/-- `Column::num_docs`: Full returns the value store's element count; Optional
and Multivalued return their index's own document count. -/
def Column.num_docs (c : Column α) : Nat :=
  match c.idx with
  | .full => c.values.num_vals
  | .optional hasValue => OptionalIndex.num_docs hasValue
  | .multivalued starts => MultivaluedIndex.num_docs starts

/-- `Column::min_value`: delegates to the value store. -/
def Column.min_value (c : Column α) : α :=
  c.values.min_value

/-- `Column::max_value`: delegates to the value store. -/
def Column.max_value (c : Column α) : α :=
  c.values.max_value

/-- `Column::values` (named `values_at` here because the record field keeps
the source's `values` name): resolves `row_id` to its row-id set via the
address-space index and yields the store's value at each of those rows. -/
def Column.values_at (c : Column α) (row_id : Nat) : List α :=
  (c.idx.value_row_ids row_id).map c.values.get_val

/-- `Column::first`: the first element of the per-document value sequence. -/
def Column.first (c : Column α) (row_id : Nat) : Option α :=
  (c.values_at row_id).head?

/-- `Column::fill_vals`: clears the output buffer, then appends the full
ordered per-document value sequence. -/
def Column.fill_vals (c : Column α) (row_id : Nat) (_output : List α) : List α :=
  [] ++ c.values_at row_id

/-- `Column::get_docids_for_value_range`: converts the selected docid range to
a row-id range, loads the matching rows into `docids`, then converts the rows
to docids in place (`selected_docid_range` is the half-open range
`[sel_start, sel_end)`). -/
def Column.get_docids_for_value_range [LinearOrder α] (c : Column α)
    (lo hi : α) (sel_start sel_end : Nat) (docids : List Nat) : List Nat :=
  let rowid_range := c.idx.docid_range_to_rowids sel_start sel_end
  let docids := c.values.get_row_ids_for_value_range lo hi rowid_range docids
  c.idx.select_batch_in_place docids sel_start

/-- The row ids a call to `get_docids_for_value_range` appends before the
reverse translation: the rows inside the translated row-id range whose value
lies in the inclusive value range. -/
def Column.candidate_rows [LinearOrder α] (c : Column α)
    (lo hi : α) (sel_start sel_end : Nat) : List Nat :=
  (List.range c.values.vals.length).filter
    (fun r => decide ((c.idx.docid_range_to_rowids sel_start sel_end).1 ≤ r ∧
      r < (c.idx.docid_range_to_rowids sel_start sel_end).2 ∧
      lo ≤ c.values.get_val r ∧ c.values.get_val r ≤ hi))

/-! ### Monotonic mapping and `to_u64_monotonic` -/

/-- Modelled from the spec: `monotonic_map_column` (not under `src/`) — wraps
a value store behind a mapping, applying it per access with no eager
materialisation: every element, and the min/max sentinels, read through the
mapping. -/
def monotonic_map_column (cv : ColumnValues α) (f : α → Nat) : ColumnValues Nat :=
  { vals := cv.vals.map f, minVal := f cv.minVal, maxVal := f cv.maxVal }

/-- `Column::to_u64_monotonic`: rewraps the value store behind the monotonic
mapping `f` (modelling `StrictlyMonotonicMappingToInternal<T>` for the
column's type) and keeps the address-space index unchanged. -/
def Column.to_u64_monotonic (c : Column α) (f : α → Nat) : Column Nat :=
  { idx := c.idx, values := monotonic_map_column c.values f }

/-- Modelled from the spec: the canonical strictly monotonic mapping for the
signed 64-bit integer type — shift by `2^63` into the unsigned domain. -/
def StrictlyMonotonicMappingToInternalI64 (x : Int) : Nat :=
  (x + 2 ^ 63).toNat

/-! ### FirstValueWithDefault (`columnar/src/column/mod.rs`) -/

/-- `FirstValueWithDefault<T>`: a read-only decorator over a column and a
default value. -/
structure FirstValueWithDefault (α : Type) where
  column : Column α
  default_value : α

/-- `Column::first_or_default_col`: builds the adapter over the column. -/
def Column.first_or_default_col (c : Column α) (default_value : α) :
    FirstValueWithDefault α :=
  { column := c, default_value := default_value }

/-- `FirstValueWithDefault::get_val`: the wrapped column's first value for the
document, or the default if none exists. -/
def FirstValueWithDefault.get_val (f : FirstValueWithDefault α) (idx : Nat) : α :=
  (f.column.first idx).getD f.default_value

/-- `FirstValueWithDefault::min_value`: passes through to the wrapped value
store. -/
def FirstValueWithDefault.min_value (f : FirstValueWithDefault α) : α :=
  f.column.values.min_value

/-- `FirstValueWithDefault::max_value`: passes through to the wrapped value
store. -/
def FirstValueWithDefault.max_value (f : FirstValueWithDefault α) : α :=
  f.column.values.max_value

/-- `FirstValueWithDefault::num_vals`: its own cardinality dispatch over the
wrapped column's index. -/
def FirstValueWithDefault.num_vals (f : FirstValueWithDefault α) : Nat :=
  match f.column.idx with
  | .full => f.column.values.num_vals
  | .optional hasValue => OptionalIndex.num_docs hasValue
  | .multivalued starts => MultivaluedIndex.num_docs starts

/-! ### Theorems -/

/-- C3: serializing any of the three Cardinality variants writes exactly one
byte; deserializing that byte (with any remaining stream) reproduces the
original variant; deserializing any byte that is not a known code returns a
recoverable decode failure, never a wrong variant. -/
theorem cardinality_roundtrip_rejects_unknown :
    (∀ c : Cardinality, (Cardinality.serialize c).length = 1) ∧
    (∀ (c : Cardinality) (rest : List Nat),
      Cardinality.deserialize (Cardinality.serialize c ++ rest) = some (c, rest)) ∧
    (∀ b : Nat, b ≠ 0 → b ≠ 1 → b ≠ 2 →
      ∀ rest : List Nat, Cardinality.deserialize (b :: rest) = none) := by
  refine ⟨fun c => by cases c <;> rfl, fun c rest => by cases c <;> rfl, ?_⟩
  intro b h0 h1 h2 rest
  have h3 : 3 ≤ b := by omega
  obtain ⟨k, rfl⟩ := Nat.exists_eq_add_of_le' h3
  rfl

/-- Witness for C3: the round trip at the Multivalued variant and the decode
failure at the unknown byte 7. -/
theorem cardinality_roundtrip_rejects_unknown_witness :
    Cardinality.deserialize (Cardinality.serialize .multivalued ++ [0]) =
      some (.multivalued, [0]) ∧
    Cardinality.deserialize (7 :: []) = none :=
  ⟨cardinality_roundtrip_rejects_unknown.2.1 .multivalued [0],
   cardinality_roundtrip_rejects_unknown.2.2 7 (by decide) (by decide) (by decide) []⟩

/-- C10: `collect_block` (chunks of four plus remainder) has exactly the same
effect on the collector state as collecting `field.get_val(d)` once for each
document of the slice in order, for slices of every length. -/
theorem collect_block_eq_sequential (field : Nat → Nat) (s : IntermediateDistinct)
    (docs : List Nat) :
    collect_block field s docs =
      docs.foldl (fun acc d => acc.collect (field d)) s := by
  induction s, docs using collect_block.induct field with
  | case1 s d1 d2 d3 d4 rest v1 v2 v3 v4 ih =>
    simp only [collect_block, List.foldl]
    exact ih
  | case2 s rest h =>
    match rest, h with
    | [], _ => rfl
    | [d1], _ => rfl
    | [d1, d2], _ => rfl
    | [d1, d2, d3], _ => rfl
    | d1 :: d2 :: d3 :: d4 :: tl, h => exact absurd rfl (h d1 d2 d3 d4 tl)

/-- C9 (code bug): a state reachable from the default state by `collect` and
`merge_fruits` alone whose `term_count` (2) exceeds the number of elements of
its `terms` set (1): merging two collectors that both collected the value 5
adds the counters while the union deduplicates, so `finalize` reports 2
although only one distinct value was ever collected. -/
theorem distinct_merge_overcounts :
    ReachableDistinct ((IntermediateDistinct.default.collect 5).merge_fruits
      (IntermediateDistinct.default.collect 5)) ∧
    ((IntermediateDistinct.default.collect 5).merge_fruits
      (IntermediateDistinct.default.collect 5)).term_count = 2 ∧
    ((IntermediateDistinct.default.collect 5).merge_fruits
      (IntermediateDistinct.default.collect 5)).terms.card = 1 ∧
    ((IntermediateDistinct.default.collect 5).merge_fruits
      (IntermediateDistinct.default.collect 5)).finalize = some 2 := by
  refine ⟨.merge (.collect 5 .default) (.collect 5 .default), ?_, ?_, ?_⟩ <;> decide

/-- The counter invariant does hold for `collect` alone: collecting any value
preserves `term_count = terms.card`, showing the two fields are meant to stay
in sync and that `merge_fruits` is where the synchronisation breaks. -/
theorem collect_preserves_term_count (s : IntermediateDistinct) (v : Nat)
    (h : s.term_count = s.terms.card) :
    (s.collect v).term_count = (s.collect v).terms.card := by
  unfold IntermediateDistinct.collect
  by_cases hv : v ∈ s.terms <;> simp [hv, h, Finset.card_insert_of_not_mem]

/-- Witness for `collect_preserves_term_count` at the default state and the
value 3. -/
theorem collect_preserves_term_count_witness :
    (IntermediateDistinct.default.collect 3).term_count =
      (IntermediateDistinct.default.collect 3).terms.card :=
  collect_preserves_term_count IntermediateDistinct.default 3 (by decide)

/-- C2: `num_docs` is cardinality-dispatched — Full returns the value store's
element count, Optional and Multivalued return their index's own document
count — and the latter may exceed the number of stored values. -/
theorem num_docs_cardinality_dispatch :
    (∀ (α : Type) (c : Column α), c.idx = .full → c.num_docs = c.values.num_vals) ∧
    (∀ (α : Type) (c : Column α) (hasValue : List Bool),
      c.idx = .optional hasValue → c.num_docs = OptionalIndex.num_docs hasValue) ∧
    (∀ (α : Type) (c : Column α) (starts : List Nat),
      c.idx = .multivalued starts → c.num_docs = MultivaluedIndex.num_docs starts) ∧
    (∃ c : Column Nat, c.get_cardinality ≠ .full ∧ c.values.num_vals < c.num_docs) := by
  refine ⟨?_, ?_, ?_,
    ⟨Column.mk (.optional [false, false, true]) (ColumnValues.mk [7] 7 7),
      by decide, by decide⟩⟩
  · intro α c h; simp [Column.num_docs, h]
  · intro α c hasValue h; simp [Column.num_docs, h]
  · intro α c starts h; simp [Column.num_docs, h]

/-- Witness for C2: the dispatch applied to a concrete Optional column of 2
documents backed by a single stored value. -/
theorem num_docs_cardinality_dispatch_witness :
    (Column.mk (.optional [false, true]) (ColumnValues.mk ([5] : List Nat) 5 5)).num_docs =
      OptionalIndex.num_docs [false, true] :=
  num_docs_cardinality_dispatch.2.1 Nat _ [false, true] rfl

/-- C5: for a Full-cardinality column over a store of N values, `num_docs`
equals N, and for every docid below N the per-document value sequence is
exactly the one-element sequence holding the store's element at row id d:
the docid-to-rowid mapping is the identity. -/
theorem full_column_num_docs_values {α : Type} (cv : ColumnValues α) (d : Nat)
    (hd : d < cv.num_vals) :
    (Column.mk .full cv).num_docs = cv.num_vals ∧
    (Column.mk .full cv).values_at d = [cv.get_val d] ∧
    cv.get_val d = cv.vals.get ⟨d, hd⟩ := by
  refine ⟨rfl, rfl, ?_⟩
  exact List.getD_eq_get cv.vals cv.minVal hd

/-- Witness for C5 at a concrete two-value Full column and docid 1. -/
theorem full_column_num_docs_values_witness :
    (Column.mk .full (ColumnValues.mk ([7, 9] : List Nat) 7 9)).num_docs =
      (ColumnValues.mk ([7, 9] : List Nat) 7 9).num_vals ∧
    (Column.mk .full (ColumnValues.mk ([7, 9] : List Nat) 7 9)).values_at 1 =
      [(ColumnValues.mk ([7, 9] : List Nat) 7 9).get_val 1] ∧
    (ColumnValues.mk ([7, 9] : List Nat) 7 9).get_val 1 =
      ([7, 9] : List Nat).get ⟨1, by decide⟩ :=
  full_column_num_docs_values (ColumnValues.mk ([7, 9] : List Nat) 7 9) 1 (by decide)

/-- C6: for an adapter with default X over a column and an in-range document
id, `get_val` returns the column's first value for the document when it has at
least one value, and X when it has none. -/
theorem first_value_with_default_get_val_spec {α : Type}
    (f : FirstValueWithDefault α) (d : Nat) (hd : d < f.column.num_docs) :
    (f.column.values_at d = [] → f.get_val d = f.default_value) ∧
    (∀ (v : α) (rest : List α), f.column.values_at d = v :: rest →
      f.get_val d = v) := by
  constructor
  · intro h
    simp [FirstValueWithDefault.get_val, Column.first, h]
  · intro v rest h
    simp [FirstValueWithDefault.get_val, Column.first, h]

/-- Witness for C6 over an Optional column of two documents: docid 0 carries
no value and reads the default 99, docid 1 carries the value 10. -/
theorem first_value_with_default_get_val_spec_witness :
    (FirstValueWithDefault.mk (Column.mk (.optional [false, true])
      (ColumnValues.mk ([10] : List Nat) 10 10)) 99).get_val 0 = 99 ∧
    (FirstValueWithDefault.mk (Column.mk (.optional [false, true])
      (ColumnValues.mk ([10] : List Nat) 10 10)) 99).get_val 1 = 10 :=
  ⟨(first_value_with_default_get_val_spec _ 0 (by decide)).1 (by decide),
   (first_value_with_default_get_val_spec _ 1 (by decide)).2 10 [] (by decide)⟩

/-- C7: the adapter's `min_value` and `max_value` pass through to the wrapped
value store unchanged for every default value; in particular a default lying
outside the wrapped store's observed range is not taken into account. -/
theorem first_value_with_default_min_max :
    (∀ (α : Type) (c : Column α) (dflt : α),
      (c.first_or_default_col dflt).min_value = c.values.min_value ∧
      (c.first_or_default_col dflt).max_value = c.values.max_value) ∧
    (∃ f : FirstValueWithDefault Nat,
      f.default_value < f.column.values.min_value ∧
      f.min_value = f.column.values.min_value ∧
      f.column.values.max_value < f.default_value + 100 ∧
      f.max_value = f.column.values.max_value) :=
  ⟨fun _ _ _ => ⟨rfl, rfl⟩,
   ⟨FirstValueWithDefault.mk (Column.mk .full (ColumnValues.mk [10] 10 10)) 0,
    by decide, rfl, by decide, rfl⟩⟩

/-- C8: the adapter's own cardinality dispatch in `num_vals` computes the same
function of the wrapped column's state as `Column::num_docs`, for every
cardinality. -/
theorem first_value_with_default_num_vals_eq_num_docs {α : Type}
    (c : Column α) (dflt : α) :
    (c.first_or_default_col dflt).num_vals = c.num_docs := by
  cases h : c.idx <;>
    simp [FirstValueWithDefault.num_vals, Column.num_docs,
      Column.first_or_default_col, h]

/-- C1 (amended): `get_docids_for_value_range` translates the selected docid
range to a row-id range, appends the row ids in that range whose value lies in
the inclusive value range to the output vector, and rewrites the output vector
in place from row ids to docids with `sel_start` as the base offset.  It never
clears the output vector — the result always holds the old length plus the
number of new candidates — but the in-place rewrite is applied to the entire
vector, pre-existing entries included; those entries survive unchanged exactly
when the reverse translation is the identity, as it is for Full cardinality. -/
theorem get_docids_for_value_range_steps {α : Type} [LinearOrder α]
    (c : Column α) (lo hi : α) (sel_start sel_end : Nat) (out : List Nat) :
    c.get_docids_for_value_range lo hi sel_start sel_end out =
      (out ++ c.candidate_rows lo hi sel_start sel_end).map
        (c.idx.select_one sel_start) ∧
    (c.get_docids_for_value_range lo hi sel_start sel_end out).length =
      out.length + (c.candidate_rows lo hi sel_start sel_end).length ∧
    (c.idx = .full →
      c.get_docids_for_value_range lo hi sel_start sel_end out =
        out ++ c.candidate_rows lo hi sel_start sel_end) := by
  have hmain : c.get_docids_for_value_range lo hi sel_start sel_end out =
      (out ++ c.candidate_rows lo hi sel_start sel_end).map
        (c.idx.select_one sel_start) := rfl
  refine ⟨hmain, ?_, ?_⟩
  · rw [hmain]; simp
  · intro hfull
    rw [hmain, hfull]
    have hid : ColumnIndex.full.select_one sel_start = fun r => r := rfl
    rw [hid]
    simp

/-- Witness for C1 (amended) at a concrete Full column with a pre-existing
entry in the output vector: the rewrite is the identity and the old entry
survives in front of the appended candidates. -/
theorem get_docids_for_value_range_steps_witness :
    (Column.mk .full (ColumnValues.mk ([10, 20] : List Nat) 10 20)).get_docids_for_value_range
        10 10 0 2 [5] =
      [5] ++ (Column.mk .full
        (ColumnValues.mk ([10, 20] : List Nat) 10 20)).candidate_rows 10 10 0 2 :=
  (get_docids_for_value_range_steps
    (Column.mk .full (ColumnValues.mk ([10, 20] : List Nat) 10 20))
    10 10 0 2 [5]).2.2 rfl

/-- Counterexample to C1 as stated: over the Optional column with presence
flags [false, true, true] and stored values [10, 20], a first call for the
value range [10, 10] over docids [0, 3) returns docid 1; accumulating a second
call for [20, 20] on top of that output rewrites the pre-existing docid 1 as a
row id, yielding [2, 2] — the docid 1 present before the call is no longer
present after it. -/
theorem get_docids_prefix_not_preserved :
    ((Column.mk (.optional [false, true, true])
      (ColumnValues.mk ([10, 20] : List Nat) 10 20)).get_docids_for_value_range
        10 10 0 3 []) = [1] ∧
    ((Column.mk (.optional [false, true, true])
      (ColumnValues.mk ([10, 20] : List Nat) 10 20)).get_docids_for_value_range
        20 20 0 3 [1]) = [2, 2] ∧
    1 ∉ ((Column.mk (.optional [false, true, true])
      (ColumnValues.mk ([10, 20] : List Nat) 10 20)).get_docids_for_value_range
        20 20 0 3 [1]) := by
  refine ⟨?_, ?_, ?_⟩ <;> decide

/-- The i64 mapping is strictly monotone on the signed 64-bit domain: the
strict order transports exactly through the shift into the unsigned domain. -/
theorem strictlyMonotonicI64_lt_iff {a b : Int}
    (ha : -(2 : Int) ^ 63 ≤ a) (hb : -(2 : Int) ^ 63 ≤ b) :
    a < b ↔ StrictlyMonotonicMappingToInternalI64 a <
      StrictlyMonotonicMappingToInternalI64 b := by
  have hp : (2 : Int) ^ 63 = 9223372036854775808 := by norm_num
  unfold StrictlyMonotonicMappingToInternalI64
  rw [hp] at *
  omega

/-- The i64 mapping is injective on the signed 64-bit domain: equality
transports exactly through the shift into the unsigned domain. -/
theorem strictlyMonotonicI64_eq_iff {a b : Int}
    (ha : -(2 : Int) ^ 63 ≤ a) (hb : -(2 : Int) ^ 63 ≤ b) :
    a = b ↔ StrictlyMonotonicMappingToInternalI64 a =
      StrictlyMonotonicMappingToInternalI64 b := by
  have hp : (2 : Int) ^ 63 = 9223372036854775808 := by norm_num
  unfold StrictlyMonotonicMappingToInternalI64
  rw [hp] at *
  omega

/-- Every value read out of a store over the signed 64-bit domain (elements
and the min/max sentinels) stays in that domain. -/
theorem get_val_in_i64_domain (cv : ColumnValues Int)
    (hall : ∀ x ∈ cv.vals, -(2 : Int) ^ 63 ≤ x)
    (hmin : -(2 : Int) ^ 63 ≤ cv.minVal) (i : Nat) :
    -(2 : Int) ^ 63 ≤ cv.get_val i := by
  unfold ColumnValues.get_val
  rcases Nat.lt_or_ge i cv.vals.length with h | h
  · rw [List.getD_eq_getElem cv.vals cv.minVal h]
    exact hall _ (cv.vals.getElem_mem h)
  · rw [List.getD_eq_default cv.vals cv.minVal h]
    exact hmin

/-- C4: the monotonic mapping used by `to_u64_monotonic` (here the canonical
i64 mapping) is strictly order-preserving on the source domain — `a < b` iff
`map a < map b` and `a = b` iff `map a = map b` — and consequently reading any
two stored values, or `min_value`/`max_value`, through the mapped
`Column<u64>` preserves their relative order. -/
theorem to_u64_monotonic_order_preserving (c : Column Int)
    (hall : ∀ x ∈ c.values.vals, -(2 : Int) ^ 63 ≤ x)
    (hmin : -(2 : Int) ^ 63 ≤ c.values.minVal)
    (hmax : -(2 : Int) ^ 63 ≤ c.values.maxVal) :
    (∀ a ∈ c.values.vals, ∀ b ∈ c.values.vals,
      ((a < b) ↔ (StrictlyMonotonicMappingToInternalI64 a <
        StrictlyMonotonicMappingToInternalI64 b)) ∧
      ((a = b) ↔ (StrictlyMonotonicMappingToInternalI64 a =
        StrictlyMonotonicMappingToInternalI64 b))) ∧
    (∀ i j : Nat,
      (c.values.get_val i < c.values.get_val j) ↔
        ((c.to_u64_monotonic StrictlyMonotonicMappingToInternalI64).values.get_val i <
         (c.to_u64_monotonic StrictlyMonotonicMappingToInternalI64).values.get_val j)) ∧
    ((c.min_value < c.max_value) ↔
      ((c.to_u64_monotonic StrictlyMonotonicMappingToInternalI64).min_value <
       (c.to_u64_monotonic StrictlyMonotonicMappingToInternalI64).max_value)) := by
  have hmapped : ∀ i : Nat,
      (c.to_u64_monotonic StrictlyMonotonicMappingToInternalI64).values.get_val i =
        StrictlyMonotonicMappingToInternalI64 (c.values.get_val i) := by
    intro i
    simp [Column.to_u64_monotonic, monotonic_map_column, ColumnValues.get_val,
      List.getD_map]
  refine ⟨?_, ?_, ?_⟩
  · intro a ha b hb
    exact ⟨strictlyMonotonicI64_lt_iff (hall a ha) (hall b hb),
      strictlyMonotonicI64_eq_iff (hall a ha) (hall b hb)⟩
  · intro i j
    rw [hmapped i, hmapped j]
    exact strictlyMonotonicI64_lt_iff (get_val_in_i64_domain c.values hall hmin i)
      (get_val_in_i64_domain c.values hall hmin j)
  · exact strictlyMonotonicI64_lt_iff hmin hmax

/-- Witness for C4 at the concrete column holding [-3, 5]: the order of
`min_value` and `max_value` survives the mapping into the unsigned domain. -/
theorem to_u64_monotonic_order_preserving_witness :
    ((Column.mk .full (ColumnValues.mk ([-3, 5] : List Int) (-3) 5)).min_value <
      (Column.mk .full (ColumnValues.mk ([-3, 5] : List Int) (-3) 5)).max_value) ↔
    (((Column.mk .full (ColumnValues.mk ([-3, 5] : List Int) (-3) 5)).to_u64_monotonic
        StrictlyMonotonicMappingToInternalI64).min_value <
     ((Column.mk .full (ColumnValues.mk ([-3, 5] : List Int) (-3) 5)).to_u64_monotonic
        StrictlyMonotonicMappingToInternalI64).max_value) :=
  (to_u64_monotonic_order_preserving
    (Column.mk .full (ColumnValues.mk ([-3, 5] : List Int) (-3) 5))
    (by decide) (by decide) (by decide)).2.2

end Tantivy
